import Mathlib

/-!
Verification of the device-dispatch runtime (HSA platform and CUDA driver
paths) against its natural-language specification.  The definitions below are
a shallow embedding of `src/src/hsa_platform.cpp` and
`src/cuda/cu_runtime.cpp`: pure computations become Lean functions, stateful
code becomes explicit state passing, driver interaction becomes event traces,
and the multi-threaded cache-population code becomes a small-step transition
relation.
-/

/- ### Kernel-argument packing (`HSAPlatform::launch_kernel`, hsa_platform.cpp:271-284) -/

/-- The alignment actually used by the `align_address` lambda in
`HSAPlatform::launch_kernel` (its first two lines): the argument's own size,
capped at 8 bytes.  This is also the divisor of the rounding expression; for
a size-0 argument it is 0 and the C expression divides by zero. -/
def cappedAlign (align0 : Nat) : Nat :=
  if align0 > 8 then 8 else align0

/-- The `align_address` lambda from `HSAPlatform::launch_kernel`:
`((base + align - 1) / align) * align` with `align` the capped alignment. -/
def align_address (base align0 : Nat) : Nat :=
  ((base + cappedAlign align0 - 1) / cappedAlign align0) * cappedAlign align0

/-- The argument-packing loop of `HSAPlatform::launch_kernel`
(hsa_platform.cpp:277-282): starting from `offset`, each argument's offset is
`align_address offset size`, after which the running offset advances by
`size`.  Returns the list of per-argument offsets and the final offset (the
total packed size compared against the kernarg segment size). -/
def packArgsAux (offset : Nat) : List Nat → List Nat × Nat
  | [] => ([], offset)
  | s :: rest =>
    let o := align_address offset s
    let r := packArgsAux (o + s) rest
    (o :: r.1, r.2)

/-- Packing a whole argument-size list, starting at offset 0 as in the source. -/
def packArgs (sizes : List Nat) : List Nat × Nat :=
  packArgsAux 0 sizes

/-- Fallible version of `align_address`: the C division is undefined when the
capped alignment (the divisor) is zero, which happens exactly for a size-0
argument; that case is `none`. -/
def align_addressChecked (base align0 : Nat) : Option Nat :=
  if cappedAlign align0 = 0 then none
  else some (((base + cappedAlign align0 - 1) / cappedAlign align0) * cappedAlign align0)

/-- Fallible version of the packing loop, propagating the division-by-zero
case of `align_addressChecked`. -/
def packArgsCheckedAux (offset : Nat) : List Nat → Option (List Nat × Nat)
  | [] => some ([], offset)
  | s :: rest =>
    (align_addressChecked offset s).bind fun o =>
      (packArgsCheckedAux (o + s) rest).map fun r => (o :: r.1, r.2)

/-- Fallible packing of a whole argument-size list. -/
def packArgsChecked (sizes : List Nat) : Option (List Nat × Nat) :=
  packArgsCheckedAux 0 sizes

/- ### HSA memory allocation (`HSAPlatform::alloc_hsa`, hsa_platform.cpp:233-242) -/

/-- Outcome of an allocation request: a returned pointer (possibly null), or
process termination with a driver status (via `CHECK_HSA` / `error`). -/
inductive AllocOutcome
  | ok (ptr : Option Nat)
  | fatal (status : Nat)
  deriving DecidableEq, Repr

/-- `HSAPlatform::alloc_hsa`: a zero size returns a null pointer immediately;
otherwise `hsa_memory_allocate` is called (modelled by `driver`, which either
yields a pointer or an error status) and a failing status is fatal.  The
second component counts driver calls made. -/
def alloc_hsa (size : Int) (driver : Except Nat Nat) : AllocOutcome × Nat :=
  if size = 0 then (.ok none, 0)
  else
    match driver with
    | .ok p => (.ok (some p), 1)
    | .error e => (.fatal e, 1)

/- ### CUDA launch-geometry state (`cu_runtime.cpp`) -/

/-- The `dim3` struct of `cu_runtime.cpp` (three `unsigned int` components,
modelled as naturals below 2^32 where conversions matter). -/
structure Dim3 where
  x : Nat
  y : Nat
  z : Nat
  deriving DecidableEq, Repr

/-- The global launch-geometry state of `cu_runtime.cpp`:
`cuDimProblem` and `cuDimBlock`. -/
structure CuState where
  dimProblem : Dim3
  dimBlock : Dim3
  deriving DecidableEq, Repr

/-- Conversion from `size_t` to `unsigned int` performed by the assignments in
`set_problem_size` / `set_config_size`. -/
def uintCast (n : Nat) : Nat := n % 2 ^ 32

/-- `set_problem_size` (cu_runtime.cpp:241-245): stores the problem extents
into `cuDimProblem`. -/
def set_problem_size (st : CuState) (sx sy sz : Nat) : CuState :=
  { st with dimProblem := ⟨uintCast sx, uintCast sy, uintCast sz⟩ }

/-- `set_config_size` (cu_runtime.cpp:248-252): stores the block extents into
`cuDimBlock`. -/
def set_config_size (st : CuState) (sx sy sz : Nat) : CuState :=
  { st with dimBlock := ⟨uintCast sx, uintCast sy, uintCast sz⟩ }

/-- The grid computation at the top of `launch_kernel`
(cu_runtime.cpp:276-279): unsigned integer division of problem extents by
block extents in each axis, truncating. -/
def launch_grid (st : CuState) : Dim3 :=
  ⟨st.dimProblem.x / st.dimBlock.x,
   st.dimProblem.y / st.dimBlock.y,
   st.dimProblem.z / st.dimBlock.z⟩

/- ### Program cache (`HSAPlatform::register_file` / `load_kernel`,
hsa_platform.cpp:353-355 and 377-442) -/

/-- Association-list lookup with string keys, modelling `std::unordered_map`
lookup where the most recent insertion for a key shadows older ones. -/
def lookupStr {α : Type} (k : String) : List (String × α) → Option α
  | [] => none
  | (k2, v) :: rest => if k = k2 then some v else lookupStr k rest

/-- File-extension extraction as in `HSAPlatform::load_kernel`
(hsa_platform.cpp:390-391): the substring after the last dot, or the empty
string when the filename has no dot. -/
def fileExt (fn : String) : String :=
  if fn.toList.contains '.' then
    String.mk ((fn.toList.reverse.takeWhile (fun c => c ≠ '.')).reverse)
  else ""

/-- The state of one HSA device's source registry and program cache:
`files_` (in-memory source override map), `programs` (source-id to
executable-handle cache), a fresh-handle counter standing for
`hsa_executable_create_alt` producing a new executable object, and a counter
of how many times the compile-and-load pipeline ran. -/
structure PState where
  files : List (String × String)
  programs : List (String × Nat)
  nextHandle : Nat
  compileCount : Nat
  deriving DecidableEq, Repr

/-- `HSAPlatform::register_file` (hsa_platform.cpp:353-355):
`files_[filename] = program_string`, a keyed overwrite. -/
def register_file (st : PState) (filename program_string : String) : PState :=
  { st with files := (filename, program_string) :: st.files }

/-- The program-cache half of `HSAPlatform::load_kernel`
(hsa_platform.cpp:381-442), single-threaded semantics: a cache hit returns
the stored executable without reading any source text; on a miss the file
extension must be `gcn` or `amdgpu`, the source text is taken from the
in-memory override map (the on-disk fallback of `load_file` is not needed by
the claims and not modelled), the compile-and-load pipeline runs (drawing a
fresh executable handle and counting one compile), and the executable is
published under the filename key.  `error(...)` aborts are `Except.error`. -/
def load_kernel_prog (st : PState) (filename : String) :
    Except String (PState × Nat) :=
  match lookupStr filename st.programs with
  | some e => .ok (st, e)
  | none =>
    if fileExt filename ≠ "gcn" ∧ fileExt filename ≠ "amdgpu" then
      .error "incorrect extension for kernel file"
    else if (lookupStr filename st.files).isNone then
      .error "could not find kernel file"
    else
      .ok ({ st with programs := (filename, st.nextHandle) :: st.programs,
                     nextHandle := st.nextHandle + 1,
                     compileCount := st.compileCount + 1 }, st.nextHandle)

/- ### Device discovery (`HSAPlatform::iterate_agents_callback`,
hsa_platform.cpp:77-156) -/

/-- Driver calls made by the discovery callback that create per-device
resources. -/
inductive DiscEvent
  | queueCreate (size : Nat)
  | profilerEnable
  | signalCreate (initial : Int)
  deriving DecidableEq, Repr

/-- The resource-creating tail of `HSAPlatform::iterate_agents_callback`
(hsa_platform.cpp:121-147): a hardware queue sized to the device's maximum
queue size is created only when that maximum is positive (and profiling is
enabled on it); one completion signal with initial value 0 is always
created.  Returns the emitted driver calls and the device's queue field
(`none` is a null queue). -/
def iterate_agents_callback (queueMaxSize : Nat) : List DiscEvent × Option Nat :=
  ((if 0 < queueMaxSize then [.queueCreate queueMaxSize, .profilerEnable] else []) ++
      [.signalCreate 0],
    if 0 < queueMaxSize then some queueMaxSize else none)

/-- The sizes of all queues created by a discovery-call trace. -/
def queueCreates (l : List DiscEvent) : List Nat :=
  l.filterMap fun e => match e with | .queueCreate s => some s | _ => none

/-- How many completion signals a discovery-call trace creates. -/
def signalCreateCount (l : List DiscEvent) : Nat :=
  l.countP fun e => match e with | .signalCreate _ => true | _ => false

/- ### HSA kernel submission and synchronization
(`HSAPlatform::launch_kernel`, hsa_platform.cpp:251-339;
`HSAPlatform::synchronize`, hsa_platform.cpp:341-346) -/

/-- Driver-visible actions of the HSA launch/synchronize paths, in the order
the calling thread performs them. -/
inductive HSAEvent
  | kernargAlloc
  | argsCopy
  | signalAdd
  | createLaunchSignal
  | packetStore (slot : Nat)
  | writeIndexStore (value : Nat)
  | doorbell (value : Nat)
  | spawnProfiler
  | waitSignal
  | getDispatchTime
  | addKernelTime
  | signalSubtract
  | destroyLaunchSignal
  deriving DecidableEq, Repr

/-- The ring-buffer slot written by `HSAPlatform::launch_kernel`
(hsa_platform.cpp:317-319): `index & queue_mask` with
`queue_mask = queue->size - 1`. -/
def queue_slot (index size : Nat) : Nat := index &&& (size - 1)

/-- The sequence of driver-visible actions performed by the calling thread in
`HSAPlatform::launch_kernel` after the kernel handle is resolved
(hsa_platform.cpp:267-339): kernarg allocation, argument packing into the
kernarg buffer, incrementing the device's completion signal, optionally
creating a dedicated launch signal (profiling only), storing the dispatch
packet at the masked write index, advancing the write index, ringing the
doorbell, and optionally spawning the detached profiling thread.  There is no
wait in this trace: the call returns after the doorbell (or after spawning
the profiler). -/
def hsaLaunchEvents (profiling : Bool) (index size : Nat) : List HSAEvent :=
  [.kernargAlloc, .argsCopy, .signalAdd] ++
  (if profiling then [.createLaunchSignal] else []) ++
  [.packetStore (queue_slot index size), .writeIndexStore (index + 1),
   .doorbell index] ++
  (if profiling then [.spawnProfiler] else [])

/-- The actions of the detached profiling thread spawned by a
profiling-enabled launch (hsa_platform.cpp:324-338): it waits on the
dedicated launch signal, reads the dispatch timestamps, accumulates kernel
time, decrements the shared in-flight signal and destroys the dedicated
signal. -/
def hsaProfilerEvents : List HSAEvent :=
  [.waitSignal, .getDispatchTime, .addKernelTime, .signalSubtract,
   .destroyLaunchSignal]

/-- `HSAPlatform::synchronize` (hsa_platform.cpp:341-346): a single blocking
wait until the device's completion signal reaches 0. -/
def hsaSynchronizeEvents : List HSAEvent := [.waitSignal]

/- ### CUDA launch path (`launch_kernel`, cu_runtime.cpp:266-302) -/

/-- Driver calls made by the CUDA `launch_kernel`, in program order. -/
inductive CUEvent
  | eventCreate
  | eventRecord
  | launchDriverCall
  | ctxSynchronize
  | eventSynchronize
  | eventDestroy
  deriving DecidableEq, Repr

/-- The driver-call sequence of `launch_kernel` in `cu_runtime.cpp`
(lines 281-296): create two timing events, record the start event, launch the
kernel, synchronize the context (the call blocks here until the device work
completes), record and synchronize the end event, destroy both events. -/
def cuLaunchEvents : List CUEvent :=
  [.eventCreate, .eventCreate, .eventRecord, .launchDriverCall,
   .ctxSynchronize, .eventRecord, .eventSynchronize, .eventDestroy,
   .eventDestroy]

/- ### JIT pipeline (`get_ocml_config` / `HSAPlatform::emit_gcn`,
hsa_platform.cpp:481-581) -/

/-- The leading decimal digits of a character list. -/
def leadingDigits (cs : List Char) : List Char :=
  cs.takeWhile (fun c => c.isDigit)

/-- Decimal value of a digit list. -/
def digitsToNat (ds : List Char) : Nat :=
  ds.foldl (fun a c => a * 10 + (c.toNat - '0'.toNat)) 0

/-- `std::stoi` as used on the ISA suffix `&cpu[3]`: an optional minus sign
followed by at least one decimal digit, parsing stops at the first non-digit;
no digits at all is an error (`std::invalid_argument`, which this runtime
never catches). -/
def stoi (s : String) : Option Int :=
  match s.toList with
  | '-' :: rest =>
    if (leadingDigits rest).isEmpty then none
    else some (-(digitsToNat (leadingDigits rest) : Int))
  | cs =>
    if (leadingDigits cs).isEmpty then none
    else some ((digitsToNat (leadingDigits cs) : Int))

/-- The fixed body of the synthesized configuration module in
`get_ocml_config` (hsa_platform.cpp:481-491), up to the ISA-version constant. -/
def ocml_config_header : String :=
  "\n        ; Module anydsl ocml config\n" ++
  "        define i32 @__oclc_finite_only_opt() alwaysinline \x7b ret i32 0 \x7d\n" ++
  "        define i32 @__oclc_unsafe_math_opt() alwaysinline \x7b ret i32 0 \x7d\n" ++
  "        define i32 @__oclc_daz_opt() alwaysinline \x7b ret i32 0 \x7d\n" ++
  "        define i32 @__oclc_amd_opt() alwaysinline \x7b ret i32 1 \x7d\n" ++
  "        define i32 @__oclc_correctly_rounded_sqrt32() alwaysinline \x7b ret i32 1 \x7d\n" ++
  "        define i32 @__oclc_ISA_version() alwaysinline \x7b ret i32 "

/-- `get_ocml_config`: the configuration module text with the ISA-version
constant set to `target`. -/
def get_ocml_config (target : Int) : String :=
  ocml_config_header ++ toString target ++ " \x7d"

/-- Steps of `HSAPlatform::emit_gcn` (hsa_platform.cpp:493-581) at the
granularity the claims need. -/
inductive EmitEvent
  | parseProgram
  | createTargetMachine
  | fatalError (msg : String)
  | synthConfig (config : String)
  | linkModule (name : String)
  | codegen
  | linkLLD
  deriving DecidableEq, Repr

/-- The step sequence of `HSAPlatform::emit_gcn` for a device ISA string
`cpu`: parse the program IR, create the target machine, then — before any
linking — reject any `cpu` whose first three characters are not `gfx`
(`cpu.compare(0, 3, "gfx")` nonzero is fatal, hsa_platform.cpp:513-514);
otherwise synthesize the configuration module from `std::stoi(&cpu[3])`
(fatal if the suffix has no digits), link the config, ocml and irif modules,
run code generation, and invoke the external `ld.lld` link step.  `error()`
terminates the process, so nothing follows a fatal step. -/
def emit_gcn_events (cpu : String) : List EmitEvent :=
  [.parseProgram, .createTargetMachine] ++
  if cpu.toList.take 3 ≠ ['g', 'f', 'x'] then
    [.fatalError ("Expected gfx ISA, got " ++ cpu)]
  else
    match stoi (String.mk (cpu.toList.drop 3)) with
    | none => [.fatalError "stoi: no digits in ISA suffix"]
    | some v =>
      [.synthConfig (get_ocml_config v),
       .linkModule "config", .linkModule "ocml", .linkModule "irif",
       .codegen, .linkLLD]

/- ### Concurrent program-cache population (`HSAPlatform::load_kernel`,
hsa_platform.cpp:381-443) -/

/-- Control state of one thread running the program-cache section of
`HSAPlatform::load_kernel` for one fixed (device, source-id) key:
about to take the lock and look up (`start`), missed and released the lock to
compile (`compiling`), holding a freshly created executable and about to
re-acquire the lock to publish (`publishing`), or finished with a returned
executable handle (`done`). -/
inductive TState
  | start
  | compiling
  | publishing (h : Nat)
  | done (r : Nat)
  deriving DecidableEq, Repr

/-- A configuration of two threads racing through the program-cache section:
the cache entry for the key, a fresh-handle counter standing for
`hsa_executable_create_alt` (each call creates a new, distinct executable
object), a ghost log of published handles (most recent first), and the two
thread states. -/
structure Conf where
  cache : Option Nat
  nextHandle : Nat
  publishLog : List Nat
  t1 : TState
  t2 : TState
  deriving DecidableEq, Repr

/-- One atomic step of the two-thread system.  Code executed while holding
the per-device lock is a single step: the lookup (hsa_platform.cpp:381-386)
and the publish `prog_cache[filename] = executable` (hsa_platform.cpp:438-439),
which stores unconditionally — the source performs no re-check for an entry
published while the lock was released.  Compilation happens with the lock
released (hsa_platform.cpp:387-437) and creates a fresh executable, and a
thread returns the executable it read or built itself (`executable` local). -/
inductive Step : Conf → Conf → Prop
  | readHit1 (c : Conf) (e : Nat) : c.t1 = .start → c.cache = some e →
      Step c { c with t1 := .done e }
  | readMiss1 (c : Conf) : c.t1 = .start → c.cache = none →
      Step c { c with t1 := .compiling }
  | compile1 (c : Conf) : c.t1 = .compiling →
      Step c { c with t1 := .publishing c.nextHandle,
                      nextHandle := c.nextHandle + 1 }
  | publish1 (c : Conf) (h : Nat) : c.t1 = .publishing h →
      Step c { c with t1 := .done h, cache := some h,
                      publishLog := h :: c.publishLog }
  | readHit2 (c : Conf) (e : Nat) : c.t2 = .start → c.cache = some e →
      Step c { c with t2 := .done e }
  | readMiss2 (c : Conf) : c.t2 = .start → c.cache = none →
      Step c { c with t2 := .compiling }
  | compile2 (c : Conf) : c.t2 = .compiling →
      Step c { c with t2 := .publishing c.nextHandle,
                      nextHandle := c.nextHandle + 1 }
  | publish2 (c : Conf) (h : Nat) : c.t2 = .publishing h →
      Step c { c with t2 := .done h, cache := some h,
                      publishLog := h :: c.publishLog }

/-- Initial configuration: no cache entry for the key yet, both threads about
to enter `load_kernel`. -/
def raceInit : Conf := ⟨none, 0, [], .start, .start⟩

/-- Reachability of a configuration by interleaving thread steps. -/
def Reach : Conf → Conf → Prop := Relation.ReflTransGen Step

/- ### Helper lemmas -/

theorem head?_eq_some_mem {α : Type} {l : List α} {a : α}
    (h : l.head? = some a) : a ∈ l := by
  cases l with
  | nil => simp at h
  | cons b tl =>
    simp at h
    subst h
    exact List.mem_cons_self b tl

theorem cappedAlign_pos (a : Nat) (ha : 1 ≤ a) : 1 ≤ cappedAlign a := by
  unfold cappedAlign; split <;> omega

/-- `align_address` rounds `base` up to the least multiple of the capped
alignment. -/
theorem align_address_spec (base a : Nat) (ha : 1 ≤ a) :
    base ≤ align_address base a ∧
    cappedAlign a ∣ align_address base a ∧
    align_address base a < base + cappedAlign a := by
  have hc : 1 ≤ cappedAlign a := cappedAlign_pos a ha
  unfold align_address
  refine ⟨?_, dvd_mul_left _ _, ?_⟩
  · have h1 : cappedAlign a * ((base + cappedAlign a - 1) / cappedAlign a) +
        (base + cappedAlign a - 1) % cappedAlign a = base + cappedAlign a - 1 :=
      Nat.div_add_mod _ _
    have h2 : (base + cappedAlign a - 1) % cappedAlign a < cappedAlign a :=
      Nat.mod_lt _ hc
    rw [Nat.mul_comm]
    obtain ⟨m, hm⟩ : ∃ m, cappedAlign a * ((base + cappedAlign a - 1) / cappedAlign a) = m :=
      ⟨_, rfl⟩
    rw [hm] at h1 ⊢
    omega
  · have h3 : (base + cappedAlign a - 1) / cappedAlign a * cappedAlign a ≤
        base + cappedAlign a - 1 := Nat.div_mul_le_self _ _
    obtain ⟨m, hm⟩ : ∃ m, (base + cappedAlign a - 1) / cappedAlign a * cappedAlign a = m :=
      ⟨_, rfl⟩
    rw [hm] at h3 ⊢
    omega

theorem align_addressChecked_pos (base a : Nat) (ha : 1 ≤ a) :
    align_addressChecked base a = some (align_address base a) := by
  have hc : 1 ≤ cappedAlign a := cappedAlign_pos a ha
  unfold align_addressChecked align_address
  rw [if_neg (by omega)]

theorem packArgsCheckedAux_isSome_iff (sizes : List Nat) (offset : Nat) :
    (packArgsCheckedAux offset sizes).isSome ↔ ∀ s ∈ sizes, 1 ≤ s := by
  induction sizes generalizing offset with
  | nil => simp [packArgsCheckedAux]
  | cons s rest ih =>
    rw [packArgsCheckedAux]
    by_cases hs : 1 ≤ s
    · rw [align_addressChecked_pos offset s hs, Option.some_bind]
      have key : ((packArgsCheckedAux (align_address offset s + s) rest).map
          (fun r => (align_address offset s :: r.1, r.2))).isSome ↔
          (packArgsCheckedAux (align_address offset s + s) rest).isSome := by
        cases packArgsCheckedAux (align_address offset s + s) rest <;> simp
      rw [key, ih]
      constructor
      · intro h t ht
        rcases List.mem_cons.mp ht with h1 | h2
        · omega
        · exact h t h2
      · intro h t ht
        exact h t (List.mem_cons_of_mem _ ht)
    · have hz : s = 0 := by omega
      subst hz
      have hnone : align_addressChecked offset 0 = none := by
        unfold align_addressChecked cappedAlign
        simp
      rw [hnone, Option.none_bind]
      constructor
      · intro h
        simp at h
      · intro h
        exact absurd (h 0 (List.mem_cons_self 0 rest)) (by omega)

theorem packArgsCheckedAux_eq_of_pos (sizes : List Nat) (offset : Nat)
    (h : ∀ s ∈ sizes, 1 ≤ s) :
    packArgsCheckedAux offset sizes = some (packArgsAux offset sizes) := by
  induction sizes generalizing offset with
  | nil => rfl
  | cons s rest ih =>
    have hs : 1 ≤ s := h s (List.mem_cons_self s rest)
    rw [packArgsCheckedAux, align_addressChecked_pos offset s hs, Option.some_bind,
        ih (align_address offset s + s) (fun t ht => h t (List.mem_cons_of_mem _ ht)),
        Option.map_some']
    rfl

/- ### Claim theorems: C2, C10, C6, C9 -/

/-- C2: argument packing is deterministic and order-preserving; each
argument's offset is the least multiple of its own size capped at 8 that is
at least the running offset (rounding up, less than one capped alignment of
padding); for the argument sizes [4, 8, 4, 16] in call order the offsets are
[0, 8, 16, 24] and the total packed size is 40 bytes. -/
theorem arg_packing_spec :
    packArgs [4, 8, 4, 16] = ([0, 8, 16, 24], 40) ∧
    ∀ base a, 1 ≤ a →
      base ≤ align_address base a ∧
      cappedAlign a ∣ align_address base a ∧
      align_address base a < base + cappedAlign a :=
  ⟨by decide, align_address_spec⟩

/-- Witness for `arg_packing_spec` at base 4, alignment-source size 8. -/
theorem arg_packing_spec_witness :
    packArgs [4, 8, 4, 16] = ([0, 8, 16, 24], 40) ∧
    (4 ≤ align_address 4 8 ∧ cappedAlign 8 ∣ align_address 4 8 ∧
      align_address 4 8 < 4 + cappedAlign 8) :=
  ⟨arg_packing_spec.1, arg_packing_spec.2 4 8 (by decide)⟩

/-- C10: the offset computation divides by the argument's own size capped at
8, so packing is total exactly when every argument size is at least 1; a
size-0 argument makes the divisor of the source expression zero (division by
zero), and on the valid domain the fallible and total packings agree. -/
theorem pack_total_iff_sizes_pos (sizes : List Nat) :
    ((packArgsChecked sizes).isSome ↔ ∀ s ∈ sizes, 1 ≤ s) ∧
    cappedAlign 0 = 0 ∧
    ((∀ s ∈ sizes, 1 ≤ s) → packArgsChecked sizes = some (packArgs sizes)) :=
  ⟨packArgsCheckedAux_isSome_iff sizes 0, by decide,
    fun h => packArgsCheckedAux_eq_of_pos sizes 0 h⟩

/-- Witness for `pack_total_iff_sizes_pos` at the size list [4, 8, 4, 16]. -/
theorem pack_total_iff_sizes_pos_witness :
    ((packArgsChecked [4, 8, 4, 16]).isSome ↔ ∀ s ∈ [4, 8, 4, 16], 1 ≤ s) ∧
    cappedAlign 0 = 0 ∧
    ((∀ s ∈ [4, 8, 4, 16], 1 ≤ s) →
      packArgsChecked [4, 8, 4, 16] = some (packArgs [4, 8, 4, 16])) :=
  pack_total_iff_sizes_pos [4, 8, 4, 16]

/-- C6: the grid is the truncating integer division of problem size by block
size in each axis; problem (256,256,1) with block (16,16,1) gives grid
(16,16,1); a non-divisible problem size truncates (the covered extent
`grid.x * block.x` is at most the problem extent and misses less than one
block), e.g. problem 100 with block 16 gives grid 6, covering only 96. -/
theorem grid_truncation (st : CuState) (h : 0 < st.dimBlock.x) :
    (∀ st0 : CuState,
      launch_grid (set_config_size (set_problem_size st0 256 256 1) 16 16 1) =
        ⟨16, 16, 1⟩) ∧
    (launch_grid st).x = st.dimProblem.x / st.dimBlock.x ∧
    (launch_grid st).x * st.dimBlock.x ≤ st.dimProblem.x ∧
    st.dimProblem.x < ((launch_grid st).x + 1) * st.dimBlock.x ∧
    (∀ st0 : CuState,
      (launch_grid (set_config_size (set_problem_size st0 100 1 1) 16 1 1)).x = 6) := by
  refine ⟨?_, rfl, Nat.div_mul_le_self _ _, ?_, ?_⟩
  · intro st0
    simp [launch_grid, set_config_size, set_problem_size, uintCast]
  · show st.dimProblem.x < (st.dimProblem.x / st.dimBlock.x + 1) * st.dimBlock.x
    have h1 : st.dimBlock.x * (st.dimProblem.x / st.dimBlock.x) +
        st.dimProblem.x % st.dimBlock.x = st.dimProblem.x := Nat.div_add_mod _ _
    have h2 : st.dimProblem.x % st.dimBlock.x < st.dimBlock.x := Nat.mod_lt _ h
    rw [Nat.add_mul, Nat.one_mul, Nat.mul_comm]
    obtain ⟨m, hm⟩ : ∃ m, st.dimBlock.x * (st.dimProblem.x / st.dimBlock.x) = m := ⟨_, rfl⟩
    rw [hm] at h1 ⊢
    omega
  · intro st0
    simp [launch_grid, set_config_size, set_problem_size, uintCast]

/-- Witness for `grid_truncation` at a concrete state with problem 100 and
block 16 in the x axis. -/
theorem grid_truncation_witness :
    (0 : Nat) < (CuState.mk ⟨100, 1, 1⟩ ⟨16, 1, 1⟩).dimBlock.x ∧
    (launch_grid (CuState.mk ⟨100, 1, 1⟩ ⟨16, 1, 1⟩)).x *
        (CuState.mk ⟨100, 1, 1⟩ ⟨16, 1, 1⟩).dimBlock.x ≤
      (CuState.mk ⟨100, 1, 1⟩ ⟨16, 1, 1⟩).dimProblem.x :=
  ⟨by decide, (grid_truncation (CuState.mk ⟨100, 1, 1⟩ ⟨16, 1, 1⟩) (by decide)).2.2.1⟩

/-- C9: `alloc_hsa` with size zero returns a null allocation and performs no
driver call; with non-zero size it performs exactly one driver call, a driver
failure is fatal, and a driver success yields the driver's pointer. -/
theorem alloc_hsa_spec (size : Int) (d : Except Nat Nat) (h : size ≠ 0) :
    (∀ d0, alloc_hsa 0 d0 = (.ok none, 0)) ∧
    (alloc_hsa size d).2 = 1 ∧
    (∀ e, d = .error e → (alloc_hsa size d).1 = .fatal e) ∧
    (∀ p, d = .ok p → (alloc_hsa size d).1 = .ok (some p)) := by
  refine ⟨fun d0 => rfl, ?_, ?_, ?_⟩
  · unfold alloc_hsa
    rw [if_neg h]
    cases d <;> rfl
  · intro e he
    subst he
    unfold alloc_hsa
    rw [if_neg h]
  · intro p hp
    subst hp
    unfold alloc_hsa
    rw [if_neg h]

/-- Witness for `alloc_hsa_spec` at size 64 with a failing driver. -/
theorem alloc_hsa_spec_witness :
    (64 : Int) ≠ 0 ∧
    (alloc_hsa 64 (Except.error 2)).2 = 1 ∧
    (alloc_hsa 64 (Except.error 2)).1 = .fatal 2 :=
  ⟨by decide,
    (alloc_hsa_spec 64 (Except.error 2) (by decide)).2.1,
    (alloc_hsa_spec 64 (Except.error 2) (by decide)).2.2.1 2 rfl⟩

/-- C4: the program cache is keyed only by the filename string, with no
content hashing: registering source text `s1` under `fn` and loading compiles
once and caches an executable `e1`; registering different source text `s2`
under the same `fn` and loading again returns the same `e1`, leaves the state
untouched apart from the registration itself, and in particular does not run
the pipeline again (the compile counter is unchanged). -/
theorem cache_key_aliasing (st : PState) (fn s1 s2 : String)
    (hext : fileExt fn = "gcn" ∨ fileExt fn = "amdgpu") :
    ∃ st1 e1,
      load_kernel_prog (register_file st fn s1) fn = .ok (st1, e1) ∧
      load_kernel_prog (register_file st1 fn s2) fn =
        .ok (register_file st1 fn s2, e1) ∧
      (register_file st1 fn s2).compileCount = st1.compileCount := by
  have hext2 : ¬ (fileExt fn ≠ "gcn" ∧ fileExt fn ≠ "amdgpu") := by
    rcases hext with h | h <;> simp [h]
  cases hp : lookupStr fn st.programs with
  | some e =>
    refine ⟨register_file st fn s1, e, ?_, ?_, rfl⟩
    · simp [load_kernel_prog, register_file, hp]
    · simp [load_kernel_prog, register_file, hp]
  | none =>
    refine ⟨{ st with files := (fn, s1) :: st.files,
                      programs := (fn, st.nextHandle) :: st.programs,
                      nextHandle := st.nextHandle + 1,
                      compileCount := st.compileCount + 1 },
            st.nextHandle, ?_, ?_, rfl⟩
    · simp [load_kernel_prog, register_file, hp, hext2, lookupStr]
    · simp [load_kernel_prog, register_file, lookupStr]

/-- Witness for `cache_key_aliasing` with filename `kernel.gcn` and two
different source texts, from the empty state. -/
theorem cache_key_aliasing_witness :
    (fileExt "kernel.gcn" = "gcn" ∨ fileExt "kernel.gcn" = "amdgpu") ∧
    ∃ st1 e1,
      load_kernel_prog (register_file (PState.mk [] [] 0 0) "kernel.gcn" "text one")
          "kernel.gcn" = .ok (st1, e1) ∧
      load_kernel_prog (register_file st1 "kernel.gcn" "text two") "kernel.gcn" =
        .ok (register_file st1 "kernel.gcn" "text two", e1) ∧
      (register_file st1 "kernel.gcn" "text two").compileCount = st1.compileCount :=
  ⟨Or.inl (by decide),
    cache_key_aliasing (PState.mk [] [] 0 0) "kernel.gcn" "text one" "text two"
      (Or.inl (by decide))⟩

/-- C5 counterexample: a device whose maximum queue size is 0 (a CPU agent)
gets no hardware queue at all — the discovery callback emits no queue-create
call and leaves the device's queue null — refuting "exactly one hardware
queue for every device discovered". -/
theorem queue_per_device_counterexample :
    queueCreates (iterate_agents_callback 0).1 = [] ∧
    queueCreates (iterate_agents_callback 0).1 ≠ [0] ∧
    (iterate_agents_callback 0).2 = none := by
  refine ⟨rfl, ?_, rfl⟩
  decide

/-- C5 amended: discovery creates exactly one completion signal for every
device; it creates exactly one hardware queue sized to the device's maximum
queue size when that maximum is positive, and no queue (null queue) when the
maximum is zero. -/
theorem queue_signal_per_device (q : Nat) :
    signalCreateCount (iterate_agents_callback q).1 = 1 ∧
    queueCreates (iterate_agents_callback q).1 = (if 0 < q then [q] else []) ∧
    (iterate_agents_callback q).2 = (if 0 < q then some q else none) := by
  by_cases h : 0 < q <;>
    simp [iterate_agents_callback, queueCreates, signalCreateCount, h]

/-- C3 counterexample: an HSA kernel launch with profiling disabled performs
no wait on the completion signal anywhere in the launch call — the call
returns right after ringing the doorbell — so it does not block until the
device signals completion of this launch's work. -/
theorem sync_launch_counterexample :
    HSAEvent.waitSignal ∉ hsaLaunchEvents false 5 1024 := by
  decide

/-- C3 amended: only the CUDA driver path blocks inside the launch call (it
issues a context synchronize before returning); the HSA launch call with
profiling disabled never waits on the completion signal — blocking until the
signal reaches its rest value happens only in `synchronize` (and, in
profiling mode, in the detached profiler thread). -/
theorem sync_launch_blocking_amended :
    CUEvent.ctxSynchronize ∈ cuLaunchEvents ∧
    (∀ index size, HSAEvent.waitSignal ∉ hsaLaunchEvents false index size) ∧
    HSAEvent.waitSignal ∈ hsaSynchronizeEvents ∧
    HSAEvent.waitSignal ∈ hsaProfilerEvents := by
  refine ⟨by decide, ?_, by decide, by decide⟩
  intro index size
  simp [hsaLaunchEvents]

/-- C7: for every kernel submission, the dispatch packet is stored at the
write index masked by size-minus-one, which equals the index reduced modulo
the queue capacity when that capacity is a power of two; and in the calling
thread's program order the completion signal is incremented strictly before
the packet store, the packet store strictly before the write-index advance
(to index + 1), and the write-index advance strictly before the doorbell. -/
theorem dispatch_packet_submission (profiling : Bool) (index size k : Nat)
    (hsz : size = 2 ^ k) :
    queue_slot index size = index % size ∧
    ∃ i j l m : Nat, i < j ∧ j < l ∧ l < m ∧
      (hsaLaunchEvents profiling index size)[i]? = some .signalAdd ∧
      (hsaLaunchEvents profiling index size)[j]? =
        some (.packetStore (queue_slot index size)) ∧
      (hsaLaunchEvents profiling index size)[l]? =
        some (.writeIndexStore (index + 1)) ∧
      (hsaLaunchEvents profiling index size)[m]? = some (.doorbell index) := by
  constructor
  · subst hsz
    exact Nat.and_pow_two_sub_one_eq_mod index k
  · cases profiling
    · exact ⟨2, 3, 4, 5, by omega, by omega, by omega, rfl, rfl, rfl, rfl⟩
    · exact ⟨2, 4, 5, 6, by omega, by omega, by omega, rfl, rfl, rfl, rfl⟩

/-- Witness for `dispatch_packet_submission` at a non-profiling launch with
write index 5 into a queue of capacity 8. -/
theorem dispatch_packet_submission_witness :
    (8 : Nat) = 2 ^ 3 ∧
    (queue_slot 5 8 = 5 % 8 ∧
      ∃ i j l m : Nat, i < j ∧ j < l ∧ l < m ∧
        (hsaLaunchEvents false 5 8)[i]? = some .signalAdd ∧
        (hsaLaunchEvents false 5 8)[j]? = some (.packetStore (queue_slot 5 8)) ∧
        (hsaLaunchEvents false 5 8)[l]? = some (.writeIndexStore (5 + 1)) ∧
        (hsaLaunchEvents false 5 8)[m]? = some (.doorbell 5)) :=
  ⟨by decide, dispatch_packet_submission false 5 8 3 (by decide)⟩

/-- C8: an ISA string whose first three characters are not `gfx` is rejected
with a fatal error before any module linking, code generation or external
linking takes place; for an accepted ISA string whose numeric suffix parses
to `v`, the synthesized configuration module is exactly the fixed header with
the ISA-version constant `v` derived from that suffix. -/
theorem isa_check_and_config (cpu : String) :
    (cpu.toList.take 3 ≠ ['g', 'f', 'x'] →
      emit_gcn_events cpu =
        [.parseProgram, .createTargetMachine,
         .fatalError ("Expected gfx ISA, got " ++ cpu)] ∧
      (∀ s, EmitEvent.linkModule s ∉ emit_gcn_events cpu) ∧
      EmitEvent.codegen ∉ emit_gcn_events cpu ∧
      EmitEvent.linkLLD ∉ emit_gcn_events cpu) ∧
    (∀ v : Int, cpu.toList.take 3 = ['g', 'f', 'x'] →
      stoi (String.mk (cpu.toList.drop 3)) = some v →
      EmitEvent.synthConfig (get_ocml_config v) ∈ emit_gcn_events cpu ∧
      get_ocml_config v = ocml_config_header ++ toString v ++ " \x7d") := by
  constructor
  · intro h
    unfold emit_gcn_events
    rw [if_pos h]
    refine ⟨rfl, ?_, ?_, ?_⟩ <;> simp
  · intro v hpre hstoi
    refine ⟨?_, rfl⟩
    unfold emit_gcn_events
    rw [if_neg (not_not_intro hpre), hstoi]
    simp

/-- Witness for `isa_check_and_config` at the ISA string `gfx906`, whose
suffix parses to 906. -/
theorem isa_check_and_config_witness :
    EmitEvent.synthConfig (get_ocml_config 906) ∈ emit_gcn_events "gfx906" ∧
    get_ocml_config 906 = ocml_config_header ++ toString (906 : Int) ++ " \x7d" :=
  (isa_check_and_config "gfx906").2 906 (by decide) (by decide)

/-- C1 counterexample: an interleaving in which both threads miss, both
compile, and both publish.  The loser of the publish race does not detect the
now-present entry: it overwrites the cache (the first-published handle 0 is
replaced by 1), two distinct executables exist, and the two racing
`load_kernel` calls return the unequal handles 0 and 1 — refuting
first-publish-wins and equal returned handles. -/
theorem cache_race_counterexample :
    Reach raceInit (Conf.mk (some 1) 2 [1, 0] (.done 0) (.done 1)) ∧
    ¬ (∀ c : Conf, Reach raceInit c →
        ∀ r1 r2, c.t1 = .done r1 → c.t2 = .done r2 → r1 = r2) := by
  have hreach : Reach raceInit (Conf.mk (some 1) 2 [1, 0] (.done 0) (.done 1)) := by
    refine Relation.ReflTransGen.head (Step.readMiss1 _ rfl rfl) ?_
    refine Relation.ReflTransGen.head (Step.readMiss2 _ rfl rfl) ?_
    refine Relation.ReflTransGen.head (Step.compile1 _ rfl) ?_
    refine Relation.ReflTransGen.head (Step.compile2 _ rfl) ?_
    refine Relation.ReflTransGen.head (Step.publish1 _ 0 rfl) ?_
    exact Relation.ReflTransGen.single (Step.publish2 _ 1 rfl)
  refine ⟨hreach, fun hclaim => ?_⟩
  exact absurd (hclaim _ hreach 0 1 rfl rfl) (by decide)

/-- C1 amended: the publish step overwrites unconditionally, so in every
reachable configuration the cache holds the most recently published
executable (last publish wins, not first), and every handle returned by a
finished thread was at some point published — racing calls may thus return
distinct handles, one of which is no longer the cached entry. -/
theorem cache_race_last_publish_wins (c : Conf) (hr : Reach raceInit c) :
    c.cache = c.publishLog.head? ∧
    (∀ r, c.t1 = .done r → r ∈ c.publishLog) ∧
    (∀ r, c.t2 = .done r → r ∈ c.publishLog) := by
  induction hr with
  | refl =>
    refine ⟨rfl, ?_, ?_⟩ <;> intro r h <;> exact absurd h (by simp [raceInit])
  | tail hsteps hstep ih =>
    obtain ⟨ih1, ih2, ih3⟩ := ih
    cases hstep with
    | readHit1 e h1 h2 =>
      refine ⟨ih1, ?_, ih3⟩
      intro r h
      have he : TState.done e = TState.done r := h
      have he2 : e = r := by injection he
      subst he2
      exact head?_eq_some_mem (ih1 ▸ h2)
    | readMiss1 h1 =>
      refine ⟨ih1, ?_, ih3⟩
      intro r h
      exact absurd h (by simp)
    | compile1 h1 =>
      refine ⟨ih1, ?_, ih3⟩
      intro r h
      exact absurd h (by simp)
    | publish1 hv h1 =>
      refine ⟨by simp, ?_, ?_⟩
      · intro r h
        have he : TState.done hv = TState.done r := h
        have he2 : hv = r := by injection he
        subst he2
        exact List.mem_cons_self hv _
      · intro r h
        exact List.mem_cons_of_mem _ (ih3 r h)
    | readHit2 e h1 h2 =>
      refine ⟨ih1, ih2, ?_⟩
      intro r h
      have he : TState.done e = TState.done r := h
      have he2 : e = r := by injection he
      subst he2
      exact head?_eq_some_mem (ih1 ▸ h2)
    | readMiss2 h1 =>
      refine ⟨ih1, ih2, ?_⟩
      intro r h
      exact absurd h (by simp)
    | compile2 h1 =>
      refine ⟨ih1, ih2, ?_⟩
      intro r h
      exact absurd h (by simp)
    | publish2 hv h1 =>
      refine ⟨by simp, ?_, ?_⟩
      · intro r h
        exact List.mem_cons_of_mem _ (ih2 r h)
      · intro r h
        have he : TState.done hv = TState.done r := h
        have he2 : hv = r := by injection he
        subst he2
        exact List.mem_cons_self hv _

/-- Witness for `cache_race_last_publish_wins` at the initial configuration,
reachable by the empty interleaving. -/
theorem cache_race_last_publish_wins_witness :
    raceInit.cache = raceInit.publishLog.head? ∧
    (∀ r, raceInit.t1 = .done r → r ∈ raceInit.publishLog) ∧
    (∀ r, raceInit.t2 = .done r → r ∈ raceInit.publishLog) :=
  cache_race_last_publish_wins raceInit Relation.ReflTransGen.refl
